import Mathlib

/-!
# Verification of the my-excel-app record-consolidation engine

A shallow embedding of the spreadsheet-processing core of the
`my-excel-app` backend.  The repository contains two revisions of the
engine:

* `app.py` (active section, identical to `app v1.py`):
  `process_uploaded_spreadsheet` — Student-Guardian consolidation with
  `SLC Name` student columns, an `Is FacultyStaff` guardian flag fed
  through `normalize_boolean`, unconditional attribute merge
  (`Parent_Info.update(details)`), and a fixed output column layout with
  explicit `None` fill for empty student slots.

* `app v2.py`: `process_spreadsheet` routes by filename suffix to
  `_process_student_parent_info` (truthiness-filtered attribute merge,
  no `Is FacultyStaff`, output columns inferred from the row dicts) or
  `_process_faculty_staff_info` (per-row column rename).

Cell values are modelled by `CellVal`; a pandas row is an association
list from column name to `CellVal` (`Series.get` returns `None` for a
missing key, and an empty spreadsheet cell reads as `NaN`).  Python
semantics that the code relies on — truthiness (`if v`), `==` (where
`nan == nan` is `False`), `str()`, `pd.notna` — are embedded explicitly.
-/

/-- A scalar cell value as produced by `pandas.read_excel`:
a string, an int-valued number, a boolean, float `NaN` (empty cell),
or Python `None` (e.g. the default of `Series.get` on a missing key). -/
inductive CellVal where
  | str (s : String)
  | num (n : Int)
  | boolVal (b : Bool)
  | nan
  | null
deriving DecidableEq, Repr

namespace CellVal

/-- Python truthiness (`if v:`).  Note `bool(float('nan'))` is `True`. -/
def truthy : CellVal → Bool
  | .str s => s ≠ ""
  | .num n => n ≠ 0
  | .boolVal b => b
  | .nan => true
  | .null => false

/-- `pd.notna`: `False` exactly on `NaN` and `None`. -/
def pdNotna : CellVal → Bool
  | .nan => false
  | .null => false
  | _ => true

/-- Python `==` on cell values: `nan == nan` is `False`; booleans
compare equal to the numbers 0/1; values of unrelated types compare
unequal; `None == None` is `True`. -/
def pyEq : CellVal → CellVal → Bool
  | .nan, _ => false
  | _, .nan => false
  | .str a, .str b => a == b
  | .num a, .num b => a == b
  | .boolVal a, .boolVal b => a == b
  | .num a, .boolVal b => a == (if b then (1 : Int) else 0)
  | .boolVal a, .num b => (if a then (1 : Int) else 0) == b
  | .null, .null => true
  | _, _ => false

/-- Python `value is None`. -/
def pyIsNone : CellVal → Bool
  | .null => true
  | _ => false

/-- Python `str()`. -/
def pyStr : CellVal → String
  | .str s => s
  | .num n => toString n
  | .boolVal b => if b then "True" else "False"
  | .nan => "nan"
  | .null => "None"

end CellVal

/-- A character of Python's default `str.strip` whitespace set. -/
def pySpace (c : Char) : Bool :=
  c == ' ' || c == '\t' || c == '\n' || c == '\r' || c == '\x0b' || c == '\x0c'

/-- Python `str.strip()`: drop whitespace from both ends. -/
def pyStrip (s : String) : String :=
  String.mk (List.reverse (List.dropWhile pySpace
    (List.reverse (List.dropWhile pySpace s.toList))))

/-- Python `str.lower()` (ASCII model). -/
def pyLower (s : String) : String :=
  String.mk (List.map Char.toLower s.toList)

/-- Python `str.endswith(suffix)`. -/
def pyEndsWith (s suffix : String) : Bool :=
  List.isSuffixOf suffix.toList s.toList

/-- A Python `dict` from column names to cell values (insertion ordered),
also used for a pandas row. -/
abbrev Dict := List (String × CellVal)

namespace Dict

/-- Python `d[k] = v`: replace in place if the key exists, else append. -/
def set (d : Dict) (k : String) (v : CellVal) : Dict :=
  if (List.any d (fun kv => kv.1 == k)) then
    List.map (fun kv => if kv.1 == k then (k, v) else kv) d
  else
    List.append d [(k, v)]

/-- Python `d.update(new)`: `d[k] = v` for each entry of `new` in order. -/
def update (d new : Dict) : Dict :=
  List.foldl (fun acc kv => set acc kv.1 kv.2) d new

/-- Key lookup, `none` when the key is missing. -/
def get? (d : Dict) (k : String) : Option CellVal :=
  Option.map (fun kv => kv.2) (List.find? (fun kv => kv.1 == k) d)

/-- Python `d.get(k)` / `Series.get(k)`: value, or `None` when missing. -/
def getD (d : Dict) (k : String) : CellVal :=
  (get? d k).getD .null

/-- The keys of the dict, in order. -/
def keys (d : Dict) : List String :=
  List.map (fun kv => kv.1) d

end Dict

/-- `normalize_boolean` from `app.py` / `app v1.py`.  `some b` models a
Python `True`/`False` result and `none` models `None` ("unknown").
A float `NaN` enters the numeric branch (`isinstance(nan, float)`), is
equal to neither 1 nor 0, and so yields `None`; a string that matches
neither word set falls through `pd.isna` to the final `return None`. -/
def normalize_boolean : CellVal → Option Bool
  | .boolVal b => some b
  | .num n => if n == 1 then some true else if n == 0 then some false else none
  | .nan => none
  | .str s =>
      let v := pyStrip (pyLower s)
      if List.contains ["true", "yes", "1", "t", "on"] v then some true
      else if List.contains ["false", "no", "0", "f", "off"] v then some false
      else none
  | .null => none

/-- `_validate_columns` from `app v2.py`:
`[col for col in expected_cols if col not in df_columns]`. -/
def validate_columns (df_columns expected_cols : List String) : List String :=
  List.filter (fun col => !(List.contains df_columns col)) expected_cols

/-- Last index of `c` in `l`, or `-1` when absent (Python `str.rfind`). -/
def pyRfind (l : List Char) (c : Char) : Int :=
  match (List.filter (fun p => p.2 == c) l.enum).getLast? with
  | some p => (p.1 : Int)
  | none => -1

/-- The name part of `os.path.splitext(p)` (POSIX): split at the last
dot, provided it lies strictly after the last `/` and some character
between them is not a dot (leading dots do not start an extension). -/
def splitextName (p : String) : String :=
  let l := p.toList
  let sepIndex := pyRfind l '.'
  let filenameIndex := pyRfind l '/' + 1
  if filenameIndex < sepIndex then
    if List.any (List.take (sepIndex.toNat - filenameIndex.toNat)
        (List.drop filenameIndex.toNat l)) (fun c => c ≠ '.') then
      String.mk (List.take sepIndex.toNat l)
    else p
  else p

/-- A structured processing error: `message` plus a `details` list, as
returned by the failure branches of `app v2.py`. -/
structure ErrInfo where
  message : String
  details : List String
deriving DecidableEq, Repr

/-- The schema variant selected by the router in
`process_spreadsheet` (`app v2.py`), or its failure. -/
inductive SchemaRoute where
  | studentParent
  | facultyStaff
  | unrecognized (err : ErrInfo)
deriving DecidableEq, Repr

/-- The routing branch of `process_spreadsheet` (`app v2.py`): strip
the extension, then dispatch on the filename suffix; neither suffix
gives the invalid-file-name error carrying the original filename. -/
def routeSchema (original_filename : String) : SchemaRoute :=
  let name_part := splitextName original_filename
  if pyEndsWith name_part "- StudentParent Information" then
    .studentParent
  else if pyEndsWith name_part "- FacultyStaff Information" then
    .facultyStaff
  else
    .unrecognized
      ⟨"Invalid file name. Name must end with '- StudentParent Information' or '- FacultyStaff Information'.",
        ["Your filename: '" ++ original_filename ++ "'"]⟩

/-- `f'Parent {i} {suffix}'`. -/
def parentCol (i : Nat) (suffix : String) : String :=
  "Parent " ++ toString i ++ " " ++ suffix

/-- Email-guard of a guardian slot
(`pd.notna(email) and str(email).strip()`). -/
def slotActive (row : Dict) (i : Nat) : Bool :=
  let email := Dict.getD row (parentCol i "Email")
  CellVal.pdNotna email && pyStrip (CellVal.pyStr email) ≠ ""

/-- ContactKey of a guardian slot: `str(email).lower().strip()`. -/
def slotKey (row : Dict) (i : Nat) : String :=
  pyStrip (pyLower (CellVal.pyStr (Dict.getD row (parentCol i "Email"))))

/-- An insertion-ordered map from ContactKey to a consolidated entry
(a Python dict whose values are the per-contact records). -/
abbrev ConsMap (α : Type) := List (String × α)

namespace ConsMap

/-- `m[k]` lookup (`none` when `k not in m`). -/
def find? {α : Type} (m : ConsMap α) (k : String) : Option α :=
  Option.map (fun kv => kv.2) (List.find? (fun kv => kv.1 == k) m)

/-- `m[k] = v` for a fresh key: appended in insertion order. -/
def insert {α : Type} (m : ConsMap α) (k : String) (v : α) : ConsMap α :=
  List.append m [(k, v)]

/-- In-place mutation of the entry at key `k`. -/
def modify {α : Type} (m : ConsMap α) (k : String) (f : α → α) : ConsMap α :=
  List.map (fun kv => if kv.1 == k then (k, f kv.2) else kv) m

/-- The keys, in insertion order. -/
def keys {α : Type} (m : ConsMap α) : List String :=
  List.map (fun kv => kv.1) m

end ConsMap

/-! ## `_process_student_parent_info` (`app v2.py`) -/

/-- Required columns of the Student-Guardian schema in `app v2.py`. -/
def expectedColsV2 : List String :=
  ["School Name", "ID Number", "Student First Name", "Student Last Name",
   "Student Grade Level", "Student Homeroom", "Parent 1 First Name", "Parent 1 Last Name",
   "Parent 1 Email", "Parent 1 Phone Number", "Parent 1 Street Address", "Parent 1 City",
   "Parent 1 State", "Parent 1 ZIP Code", "Parent 2 First Name", "Parent 2 Last Name",
   "Parent 2 Email", "Parent 2 Phone Number", "Parent 2 Street Address", "Parent 2 City",
   "Parent 2 State", "Parent 2 ZIP Code"]

/-- The `student_info` dict built per row in `app v2.py`. -/
def studentInfoV2 (row : Dict) : Dict :=
  [("ID Number", Dict.getD row "ID Number"),
   ("First Name", Dict.getD row "Student First Name"),
   ("Last Name", Dict.getD row "Student Last Name"),
   ("Grade Level", Dict.getD row "Student Grade Level"),
   ("Homeroom", Dict.getD row "Student Homeroom")]

/-- The `parent_details` dict of guardian slot `i` in `app v2.py`. -/
def parentDetailsV2 (row : Dict) (i : Nat) : Dict :=
  [("Firstname", Dict.getD row (parentCol i "First Name")),
   ("Lastname", Dict.getD row (parentCol i "Last Name")),
   ("SMS", Dict.getD row (parentCol i "Phone Number")),
   ("Street Address", Dict.getD row (parentCol i "Street Address")),
   ("City", Dict.getD row (parentCol i "City")),
   ("State", Dict.getD row (parentCol i "State")),
   ("ZIP Code", Dict.getD row (parentCol i "ZIP Code"))]

/-- One consolidated value of `processed_data` in `app v2.py`:
`{"Parent_Info": …, "Students_Info": …, "School_Name": …}`. -/
structure EntryV2 where
  parentInfo : Dict
  students : List Dict
  schoolName : CellVal
deriving DecidableEq, Repr

/-- The student-append step of `app v2.py`: append unless the list is
full or some stored student's `ID Number` compares `==` to the new one
(`nan == nan` is `False`, so absent IDs never match). -/
def addStudentV2 (students : List Dict) (student_info : Dict) : List Dict :=
  if students.length < 4 &&
      !(List.any students (fun s =>
        CellVal.pyEq (Dict.getD s "ID Number") (Dict.getD student_info "ID Number"))) then
    List.append students [student_info]
  else students

/-- Processing of one guardian slot in `app v2.py`: skip when the email
cell fails the guard; otherwise seed a fresh entry if the key is new,
merge the truthiness-filtered `parent_details`, and try the student
append. -/
def processSlotV2 (row student_info : Dict) (school_name : CellVal) (i : Nat)
    (m : ConsMap EntryV2) : ConsMap EntryV2 :=
  if slotActive row i then
    let email_key := slotKey row i
    let m1 :=
      if (ConsMap.find? m email_key).isSome then m
      else ConsMap.insert m email_key ⟨[], [], school_name⟩
    ConsMap.modify m1 email_key (fun e =>
      let merged :=
        Dict.update e.parentInfo
          (List.filter (fun kv => CellVal.truthy kv.2) (parentDetailsV2 row i))
      let e1 : EntryV2 := { e with parentInfo := merged }
      { e1 with students := addStudentV2 e1.students student_info })
  else m

/-- Processing of one row in `app v2.py`: extract the student dict and
school name once, then handle guardian slots 1 and 2 in order. -/
def processRowV2 (m : ConsMap EntryV2) (row : Dict) : ConsMap EntryV2 :=
  let student_info := studentInfoV2 row
  let school_name := Dict.getD row "School Name"
  processSlotV2 row student_info school_name 2
    (processSlotV2 row student_info school_name 1 m)

/-- The consolidation loop of `_process_student_parent_info`. -/
def consolidateV2 (rows : List Dict) : ConsMap EntryV2 :=
  List.foldl processRowV2 [] rows

/-- One output `row_data` dict of `_process_student_parent_info`:
email and school name, the merged parent info, then each stored
student's fields under `f"{key} Student {i+1}"`. -/
def outputRowV2 (email : String) (e : EntryV2) : Dict :=
  let rd := Dict.update [("Email", .str email), ("School Name", e.schoolName)] e.parentInfo
  List.foldl (fun rd p =>
      List.foldl (fun rd kv =>
        Dict.set rd (kv.1 ++ " Student " ++ toString (p.1 + 1)) kv.2) rd p.2)
    rd e.students.enum

/-- The `output_rows` list of `_process_student_parent_info`. -/
def outputRowsV2 (m : ConsMap EntryV2) : List Dict :=
  List.map (fun kv => outputRowV2 kv.1 kv.2) m

/-- An input dataset: column names plus rows (each row a dict holding a
cell for every column; empty cells read as `NaN`). -/
structure Df where
  columns : List String
  rows : List Dict
deriving DecidableEq, Repr

/-- `_process_student_parent_info` (`app v2.py`): validate the columns,
then consolidate and project.  The success value is the `output_rows`
list handed to `pd.DataFrame` (whose columns are inferred). -/
def process_student_parent_info (df : Df) : Except ErrInfo (List Dict) :=
  let missing_cols := validate_columns df.columns expectedColsV2
  if missing_cols ≠ [] then
    .error ⟨"Column mismatch in Student-Parent file.",
      List.append (List.append ["Missing columns:"] missing_cols)
        (List.append ["---", "Available columns:"] df.columns)⟩
  else
    .ok (outputRowsV2 (consolidateV2 df.rows))

/-! ## `_process_faculty_staff_info` (`app v2.py`) -/

/-- Required columns of the Staff schema in `app v2.py`. -/
def expectedColsStaff : List String :=
  ["School Name", "ID Number", "First Name", "Last Name", "Email",
   "Phone Number", "Street Address", "City", "State", "ZIP Code"]

/-- The column-rename map of `_process_faculty_staff_info`. -/
def staffRename (c : String) : String :=
  if c == "First Name" then "Firstname"
  else if c == "Last Name" then "Lastname"
  else if c == "Phone Number" then "SMS"
  else c

/-- The `output_cols` selection of `_process_faculty_staff_info`. -/
def staffOutputCols : List String :=
  ["Email", "School Name", "Firstname", "Lastname", "SMS",
   "Street Address", "City", "State", "ZIP Code"]

/-- `_process_faculty_staff_info` (`app v2.py`): validate, rename the
columns of every row, and select the fixed output columns.  The result
rows keep the input rows' order, one output row per input row. -/
def process_faculty_staff_info (df : Df) : Except ErrInfo Df :=
  let missing_cols := validate_columns df.columns expectedColsStaff
  if missing_cols ≠ [] then
    .error ⟨"Column mismatch in Faculty-Staff file.",
      List.append (List.append ["Missing columns:"] missing_cols)
        (List.append ["---", "Available columns:"] df.columns)⟩
  else
    .ok ⟨staffOutputCols,
      List.map (fun row =>
        let renamed : Dict := List.map (fun kv => (staffRename kv.1, kv.2)) row
        List.map (fun c => (c, Dict.getD renamed c)) staffOutputCols) df.rows⟩

/-- `process_spreadsheet` (`app v2.py`) after the Excel decode: route on
the filename and run the selected processor.  A Student-Guardian result
is a list of row dicts, a Staff result a fixed-column dataset. -/
def process_spreadsheet (original_filename : String) (df : Df) :
    Except ErrInfo (List Dict ⊕ Df) :=
  match routeSchema original_filename with
  | .studentParent => Except.map Sum.inl (process_student_parent_info df)
  | .facultyStaff => Except.map Sum.inr (process_faculty_staff_info df)
  | .unrecognized err => .error err

/-! ## `process_uploaded_spreadsheet` (`app.py`, identical in `app v1.py`) -/

/-- Required columns of the Student-Guardian schema in `app.py`
(adds `SLC Name` and the two `Is FacultyStaff` guardian columns). -/
def expectedColsV1 : List String :=
  ["School Name", "SLC Name", "ID Number", "Student First Name", "Student Last Name",
   "Student Grade Level", "Student Homeroom", "Parent 1 First Name", "Parent 1 Last Name",
   "Parent 1 Email", "Parent 1 Phone Number", "Parent 1 Is FacultyStaff",
   "Parent 1 Street Address", "Parent 1 City", "Parent 1 State", "Parent 1 ZIP Code",
   "Parent 2 First Name", "Parent 2 Last Name", "Parent 2 Email", "Parent 2 Phone Number",
   "Parent 2 Is FacultyStaff", "Parent 2 Street Address", "Parent 2 City",
   "Parent 2 State", "Parent 2 ZIP Code"]

/-- `input_student_cols` of `app.py`. -/
def inputStudentColsV1 : List String :=
  ["School Name", "SLC Name", "ID Number", "Student First Name", "Student Last Name",
   "Student Grade Level", "Student Homeroom"]

/-- `output_student_base_names` of `app.py` (dict, in insertion order):
input student column ↦ output base name; `School Name` is not projected. -/
def outputStudentBaseNamesV1 : List (String × String) :=
  [("SLC Name", "SLC Name"), ("ID Number", "ID Number"),
   ("Student First Name", "First Name"), ("Student Last Name", "Last Name"),
   ("Student Grade Level", "Grade Level"), ("Student Homeroom", "Homeroom")]

/-- `student_info = {col: row.get(col) for col in input_student_cols}`. -/
def studentInfoV1 (row : Dict) : Dict :=
  List.map (fun col => (col, Dict.getD row col)) inputStudentColsV1

/-- A Python `True`/`False`/`None` result stored back into a dict cell. -/
def cellOfOptBool : Option Bool → CellVal
  | some b => .boolVal b
  | none => .null

/-- The `details` dict of guardian slot `i` in `app.py` (includes the
`Is FacultyStaff` flag normalized by `normalize_boolean`). -/
def parentDetailsV1 (row : Dict) (i : Nat) : Dict :=
  [("Firstname", Dict.getD row (parentCol i "First Name")),
   ("Lastname", Dict.getD row (parentCol i "Last Name")),
   ("SMS", Dict.getD row (parentCol i "Phone Number")),
   ("Is FacultyStaff", cellOfOptBool (normalize_boolean (Dict.getD row (parentCol i "Is FacultyStaff")))),
   ("Street Address", Dict.getD row (parentCol i "Street Address")),
   ("City", Dict.getD row (parentCol i "City")),
   ("State", Dict.getD row (parentCol i "State")),
   ("ZIP Code", Dict.getD row (parentCol i "ZIP Code"))]

/-- One consolidated value of `processed_data` in `app.py`. -/
structure EntryV1 where
  parentInfo : Dict
  students : List Dict
  schoolName : CellVal
deriving DecidableEq, Repr

/-- The student-append step of `app.py` (`max_students = 4`): append
when the list is not full and either the new `ID Number` `is None` or
no stored student's `ID Number` compares `==` to it. -/
def addStudentV1 (students : List Dict) (student_info : Dict) : List Dict :=
  if students.length < 4 &&
      (CellVal.pyIsNone (Dict.getD student_info "ID Number") ||
        !(List.any students (fun s =>
          CellVal.pyEq (Dict.getD s "ID Number") (Dict.getD student_info "ID Number")))) then
    List.append students [student_info]
  else students

/-- Processing of one guardian slot in `app.py`: a fresh key is seeded
with the full `details` dict; an existing key gets an unconditional
`Parent_Info.update(details)`; then the student append is attempted. -/
def processSlotV1 (row student_info : Dict) (school_name : CellVal) (i : Nat)
    (m : ConsMap EntryV1) : ConsMap EntryV1 :=
  if slotActive row i then
    let email_key := slotKey row i
    let m1 :=
      if (ConsMap.find? m email_key).isSome then
        ConsMap.modify m email_key (fun e =>
          { e with parentInfo := Dict.update e.parentInfo (parentDetailsV1 row i) })
      else ConsMap.insert m email_key ⟨parentDetailsV1 row i, [], school_name⟩
    ConsMap.modify m1 email_key (fun e =>
      { e with students := addStudentV1 e.students student_info })
  else m

/-- Processing of one row in `app.py`: the school name is read from the
`student_info` dict; slots 1 and 2 are handled in order (the code
collects the active slots into `parents_this_student` first, which is
equivalent). -/
def processRowV1 (m : ConsMap EntryV1) (row : Dict) : ConsMap EntryV1 :=
  let student_info := studentInfoV1 row
  let school_name := Dict.getD student_info "School Name"
  processSlotV1 row student_info school_name 2
    (processSlotV1 row student_info school_name 1 m)

/-- The consolidation loop of `process_uploaded_spreadsheet`. -/
def consolidateV1 (rows : List Dict) : ConsMap EntryV1 :=
  List.foldl processRowV1 [] rows

/-- `parent_cols` of the `app.py` projection. -/
def parentColsV1 : List String :=
  ["Firstname", "Lastname", "SMS", "Is FacultyStaff",
   "Street Address", "City", "State", "ZIP Code"]

/-- `output_cols` of `app.py`: the contact columns, then for each slot
1..4 the six student base names suffixed `" Student {i}"`. -/
def outputColsV1 : List String :=
  List.append (List.append ["Email", "School Name"] parentColsV1)
    (List.flatMap [1, 2, 3, 4] (fun i =>
        List.map (fun p => p.2 ++ " Student " ++ toString i) outputStudentBaseNamesV1))

/-- Projection of one student slot in `app.py`: when slot `i` holds a
student, write its six projected fields under `" Student {i+1}"` names;
otherwise write explicit `None` under every one of those names. -/
def writeSlotV1 (s? : Option Dict) (i : Nat) (rd : Dict) : Dict :=
  match s? with
  | some s =>
      List.foldl (fun rd p =>
        Dict.set rd (p.2 ++ " Student " ++ toString (i + 1)) (Dict.getD s p.1))
        rd outputStudentBaseNamesV1
  | none =>
      List.foldl (fun rd p =>
        Dict.set rd (p.2 ++ " Student " ++ toString (i + 1)) CellVal.null)
        rd outputStudentBaseNamesV1

/-- One `row_data` dict of the `app.py` projection: email, school name,
the merged parent info, then for each slot index 0..3 either the stored
student's projected fields or explicit `None` for every field. -/
def outputRowV1 (email : String) (e : EntryV1) : Dict :=
  let rd := Dict.update [("Email", .str email), ("School Name", e.schoolName)] e.parentInfo
  List.foldl (fun rd i => writeSlotV1 (e.students.get? i) i rd) rd [0, 1, 2, 3]

/-- `pd.DataFrame(output_rows, columns=output_cols)`: each row is
reindexed by the fixed column list (a key absent from the dict would
read as `NaN`). -/
def reindexRow (cols : List String) (d : Dict) : Dict :=
  List.map (fun c => (c, (Dict.get? d c).getD .nan)) cols

/-- The processing part of `process_uploaded_spreadsheet` (`app.py`):
validate the columns, consolidate, and project onto the fixed output
columns.  File I/O around it is the collaborator's concern. -/
def process_uploaded_spreadsheet (df : Df) : Except String Df :=
  let missing_cols := validate_columns df.columns expectedColsV1
  if missing_cols ≠ [] then
    .error ("Missing columns: " ++ String.intercalate ", " missing_cols ++
      ". Available: " ++ String.intercalate ", " df.columns)
  else
    .ok ⟨outputColsV1,
      List.map (fun kv => reindexRow outputColsV1 (outputRowV1 kv.1 kv.2))
        (consolidateV1 df.rows)⟩

/-! ## Concrete datasets used as evaluation inputs -/

/-- A Student-Guardian row of the `app.py` schema with every cell an
empty-cell `NaN` (what `read_excel` yields for a blank row). -/
def baseRowV1 : Dict := List.map (fun c => (c, CellVal.nan)) expectedColsV1

/-- Row 1 of the merge-blanking input: guardian `a@x.com` with first
name `Alice` and student `S1`; every other cell blank. -/
def rowAliceS1 : Dict :=
  Dict.update baseRowV1
    [("ID Number", .str "S1"), ("Parent 1 Email", .str "a@x.com"),
     ("Parent 1 First Name", .str "Alice")]

/-- Row 2 of the merge-blanking input: the same guardian email (with
case and whitespace noise) and student `S2`; the guardian first-name
cell is blank (`NaN`). -/
def rowBlankS2 : Dict :=
  Dict.update baseRowV1
    [("ID Number", .str "S2"), ("Parent 1 Email", .str "A@x.com ")]

/-- C1: the claimed non-destructive-overwrite merge fails on the code.
On an input where row 1 records guardian `a@x.com` with Firstname
`Alice` and row 2 repeats the same ContactKey with a blank (`NaN`)
Firstname cell, both revisions end with Firstname erased to `NaN`:
`app.py` merges with an unconditional `Parent_Info.update(details)`,
and the `{k: v for k, v in … if v}` filter of `app v2.py` does not
filter `NaN` because `bool(float('nan'))` is `True` in Python.  After
row 1 alone the stored value is `Alice`, so row 2's absent value did
erase a previously recorded one. -/
theorem merge_overwrites_with_blank :
    Option.map (fun e => Dict.get? e.parentInfo "Firstname")
        (ConsMap.find? (consolidateV2 [rowAliceS1]) "a@x.com") =
      some (some (.str "Alice")) ∧
    Option.map (fun e => Dict.get? e.parentInfo "Firstname")
        (ConsMap.find? (consolidateV2 [rowAliceS1, rowBlankS2]) "a@x.com") =
      some (some .nan) ∧
    Option.map (fun e => Dict.get? e.parentInfo "Firstname")
        (ConsMap.find? (consolidateV1 [rowAliceS1]) "a@x.com") =
      some (some (.str "Alice")) ∧
    Option.map (fun e => Dict.get? e.parentInfo "Firstname")
        (ConsMap.find? (consolidateV1 [rowAliceS1, rowBlankS2]) "a@x.com") =
      some (some .nan) := by
  refine ⟨by decide, by decide, by decide, by decide⟩

/-- C9: characterization of `normalize_boolean`: it is total (defined
on every cell value, so it never raises) and returns `True` exactly for
a native `True`, a numeric 1, or a string whose lower-cased trimmed
form is in the affirmative set; `False` exactly for a native `False`, a
numeric 0, or a string in the negative set; and unknown (`none`)
otherwise — in particular on missing/blank values — matching the
claimed examples. -/
theorem normalize_boolean_spec :
    (∀ v : CellVal,
      (normalize_boolean v = some true ↔
        (v = .boolVal true ∨ v = .num 1 ∨
          ∃ s, v = .str s ∧ pyStrip (pyLower s) ∈ ["true", "yes", "1", "t", "on"])) ∧
      (normalize_boolean v = some false ↔
        (v = .boolVal false ∨ v = .num 0 ∨
          ∃ s, v = .str s ∧ pyStrip (pyLower s) ∈ ["false", "no", "0", "f", "off"]))) ∧
    normalize_boolean (.str "Yes") = some true ∧
    normalize_boolean (.str "0") = some false ∧
    normalize_boolean (.str "") = none ∧
    normalize_boolean .nan = none ∧
    normalize_boolean .null = none ∧
    normalize_boolean (.num 1) = some true ∧
    normalize_boolean (.str "maybe") = none := by
  have hdisj : ∀ a ∈ ["true", "yes", "1", "t", "on"],
      a ∉ ["false", "no", "0", "f", "off"] := by decide
  refine ⟨fun v => ?_, by decide, by decide, by decide, by decide, by decide,
    by decide, by decide⟩
  cases v with
  | boolVal b => cases b <;> simp [normalize_boolean]
  | num n =>
      constructor <;> constructor <;> intro h
      · simp only [normalize_boolean] at h
        split at h
        · rename_i h1; simp at h1 ⊢; omega
        · split at h <;> simp_all
      · rcases h with h | h | ⟨s, hs, _⟩ <;> simp_all [normalize_boolean]
      · simp only [normalize_boolean] at h
        split at h
        · simp_all
        · split at h
          · rename_i h1 h2; simp at h2 ⊢; omega
          · simp_all
      · rcases h with h | h | ⟨s, hs, _⟩ <;> simp_all [normalize_boolean]
  | str s =>
      constructor <;> constructor <;> intro h
      · simp only [normalize_boolean] at h
        split at h
        · rename_i h1
          exact Or.inr (Or.inr ⟨s, rfl, by simpa [List.elem_iff] using h1⟩)
        · split at h <;> simp_all
      · rcases h with h | h | ⟨s', hs, hmem⟩
        · simp_all
        · simp_all
        · cases hs
          simp [normalize_boolean, List.elem_iff, hmem]
      · simp only [normalize_boolean] at h
        split at h
        · simp_all
        · split at h
          · rename_i h1 h2
            exact Or.inr (Or.inr ⟨s, rfl, by simpa [List.elem_iff] using h2⟩)
          · simp_all
      · rcases h with h | h | ⟨s', hs, hmem⟩
        · simp_all
        · simp_all
        · cases hs
          have hnotA : pyStrip (pyLower s) ∉ ["true", "yes", "1", "t", "on"] := by
            intro hA; exact hdisj _ hA hmem
          simp [normalize_boolean, List.elem_iff, hmem, hnotA]
  | nan => simp [normalize_boolean]
  | null => simp [normalize_boolean]

/-- C5: the schema router strips the filename's extension and tests the
remaining name: the Student-Guardian suffix selects the Student-Guardian
variant, otherwise the Staff suffix selects the Staff variant, and when
neither matches the whole pipeline fails with the unrecognized-schema
structured error whose details carry the offending filename — for every
dataset, so no processing happens and no output is produced. -/
theorem schema_router_spec :
    ∀ fn : String,
      (pyEndsWith (splitextName fn) "- StudentParent Information" = true →
        routeSchema fn = .studentParent) ∧
      (pyEndsWith (splitextName fn) "- StudentParent Information" = false →
        pyEndsWith (splitextName fn) "- FacultyStaff Information" = true →
        routeSchema fn = .facultyStaff) ∧
      (pyEndsWith (splitextName fn) "- StudentParent Information" = false →
        pyEndsWith (splitextName fn) "- FacultyStaff Information" = false →
        ∃ err : ErrInfo, routeSchema fn = .unrecognized err ∧
          ("Your filename: '" ++ fn ++ "'") ∈ err.details ∧
          ∀ df : Df, process_spreadsheet fn df = .error err) := by
  intro fn
  refine ⟨fun h1 => ?_, fun h1 h2 => ?_, fun h1 h2 => ?_⟩
  · simp [routeSchema, h1]
  · simp [routeSchema, h1, h2]
  · refine ⟨⟨"Invalid file name. Name must end with '- StudentParent Information' or '- FacultyStaff Information'.",
      ["Your filename: '" ++ fn ++ "'"]⟩,
      by simp [routeSchema, h1, h2], by simp, fun df => ?_⟩
    simp [process_spreadsheet, routeSchema, h1, h2]

/-- Witness for C5 at the spec's own examples:
`"Lincoln - StudentParent Information.xlsx"` routes to the
Student-Guardian variant and `"Lincoln.xlsx"` yields the structured
error carrying that filename, with no output for a concrete dataset. -/
theorem schema_router_spec_witness :
    routeSchema "Lincoln - StudentParent Information.xlsx" = .studentParent ∧
    ∃ err : ErrInfo, routeSchema "Lincoln.xlsx" = .unrecognized err ∧
      ("Your filename: 'Lincoln.xlsx'") ∈ err.details ∧
      process_spreadsheet "Lincoln.xlsx" ⟨[], []⟩ = .error err := by
  refine ⟨(schema_router_spec _).1 (by decide), ?_⟩
  obtain ⟨err, h1, h2, h3⟩ :=
    (schema_router_spec "Lincoln.xlsx").2.2 (by decide) (by decide)
  exact ⟨err, h1, h2, h3 _⟩

/-- Claim C6's example dataset: all Student-Guardian columns except
`Student Grade Level`, and no rows. -/
def dfMissingGrade : Df :=
  ⟨List.filter (fun c => c ≠ "Student Grade Level") expectedColsV2, []⟩

/-- C6: `_validate_columns` returns exactly the required columns absent
from the dataset, in the required list's order (a sublist of it), and
whenever this list is non-empty `_process_student_parent_info` stops
with the column-mismatch error whose details contain every missing
column and every available column, producing no output rows. -/
theorem validate_columns_spec :
    (∀ (df_columns expected_cols : List String),
      (validate_columns df_columns expected_cols).Sublist expected_cols ∧
      ∀ c, c ∈ validate_columns df_columns expected_cols ↔
        c ∈ expected_cols ∧ c ∉ df_columns) ∧
    (∀ df : Df, validate_columns df.columns expectedColsV2 ≠ [] →
      ∃ err : ErrInfo, process_student_parent_info df = .error err ∧
        (∀ c ∈ validate_columns df.columns expectedColsV2, c ∈ err.details) ∧
        (∀ c ∈ df.columns, c ∈ err.details)) := by
  constructor
  · intro df_columns expected_cols
    refine ⟨List.filter_sublist _, fun c => ?_⟩
    simp [validate_columns, List.mem_filter, List.elem_iff]
  · intro df h
    refine ⟨⟨"Column mismatch in Student-Parent file.",
      List.append (List.append ["Missing columns:"] (validate_columns df.columns expectedColsV2))
        (List.append ["---", "Available columns:"] df.columns)⟩,
      ?_, fun c hc => ?_, fun c hc => ?_⟩
    · simp only [process_student_parent_info]
      rw [if_pos h]
    · simp [List.mem_append, hc]
    · simp [List.mem_append, hc]

/-- Witness for C6: with `Student Grade Level` removed from the input
columns, the validator reports exactly that column and the pipeline
stops with an error whose details name it along with an available
column. -/
theorem validate_columns_spec_witness :
    validate_columns dfMissingGrade.columns expectedColsV2 = ["Student Grade Level"] ∧
    ∃ err : ErrInfo, process_student_parent_info dfMissingGrade = .error err ∧
      "Student Grade Level" ∈ err.details ∧ "School Name" ∈ err.details := by
  refine ⟨by decide, ?_⟩
  obtain ⟨err, h1, h2, h3⟩ := validate_columns_spec.2 dfMissingGrade (by decide)
  exact ⟨err, h1, h2 _ (by decide), h3 _ (by decide)⟩

/-- C2: the student-append rule.  Provided the new student's `ID Number`
cell is an actual cell value (not Python `None`, which validated
spreadsheet rows never contain), both revisions agree, the row's student
is appended exactly when the list is below capacity and no stored
student has an identifying field present on both records and `==`-equal
(`nan == nan` is `False`), skipping — i.e. keeping the first
occurrence — exactly in the complementary case, and a student whose
`ID Number` is absent (`NaN`) is never considered a duplicate: it is
appended subject only to the capacity bound. -/
theorem student_dedup_spec :
    ∀ (students : List Dict) (s : Dict),
      Dict.getD s "ID Number" ≠ .null →
      (addStudentV1 students s = addStudentV2 students s) ∧
      (addStudentV2 students s = List.append students [s] ↔
        students.length < 4 ∧
        ¬ ∃ t ∈ students, Dict.getD t "ID Number" ≠ .nan ∧ Dict.getD t "ID Number" ≠ .null ∧
            Dict.getD s "ID Number" ≠ .nan ∧
            CellVal.pyEq (Dict.getD t "ID Number") (Dict.getD s "ID Number") = true) ∧
      (addStudentV2 students s = students ↔
        (4 ≤ students.length ∨
          ∃ t ∈ students, Dict.getD t "ID Number" ≠ .nan ∧ Dict.getD t "ID Number" ≠ .null ∧
            Dict.getD s "ID Number" ≠ .nan ∧
            CellVal.pyEq (Dict.getD t "ID Number") (Dict.getD s "ID Number") = true)) ∧
      (Dict.getD s "ID Number" = .nan →
        (addStudentV2 students s = List.append students [s] ↔ students.length < 4)) := by
  intro students s hnull
  have hpyeq_nan : ∀ a b : CellVal, CellVal.pyEq a b = true → a ≠ .nan ∧ b ≠ .nan := by
    intro a b h
    cases a <;> cases b <;> simp_all [CellVal.pyEq]
  have hpyeq_null : ∀ b : CellVal, CellVal.pyEq .null b = true → b = .null := by
    intro b h
    cases b <;> simp_all [CellVal.pyEq]
  have hexists :
      (∃ t ∈ students,
        CellVal.pyEq (Dict.getD t "ID Number") (Dict.getD s "ID Number") = true) ↔
      (∃ t ∈ students, Dict.getD t "ID Number" ≠ .nan ∧ Dict.getD t "ID Number" ≠ .null ∧
        Dict.getD s "ID Number" ≠ .nan ∧
        CellVal.pyEq (Dict.getD t "ID Number") (Dict.getD s "ID Number") = true) := by
    constructor
    · rintro ⟨t, ht, heq⟩
      obtain ⟨h1, h2⟩ := hpyeq_nan _ _ heq
      refine ⟨t, ht, h1, fun hn => hnull ?_, h2, heq⟩
      rw [hn] at heq
      exact hpyeq_null _ heq
    · rintro ⟨t, ht, _, _, _, heq⟩
      exact ⟨t, ht, heq⟩
  have hisnone : CellVal.pyIsNone (Dict.getD s "ID Number") = false := by
    cases hx : Dict.getD s "ID Number" <;> simp_all [CellVal.pyIsNone]
  have hne : List.append students [s] ≠ students := by
    intro h
    have := congrArg List.length h
    simp at this
  have hv1 : addStudentV1 students s = addStudentV2 students s := by
    simp [addStudentV1, addStudentV2, hisnone]
  refine ⟨hv1, ?_, ?_, ?_⟩
  · rw [← hexists]
    by_cases hex : ∃ t ∈ students,
        CellVal.pyEq (Dict.getD t "ID Number") (Dict.getD s "ID Number") = true
    · have hany : (List.any students fun t =>
          CellVal.pyEq (Dict.getD t "ID Number") (Dict.getD s "ID Number")) = true := by
        rw [List.any_eq_true]
        exact hex
      simp [addStudentV2, hany, hne, hex]
    · have hany := (List.any_eq_false).mpr (by
        intro t ht heq
        exact hex ⟨t, ht, heq⟩)
      by_cases h4 : students.length < 4 <;> simp [addStudentV2, hany, h4, hne, hex]
  · rw [← hexists]
    by_cases hex : ∃ t ∈ students,
        CellVal.pyEq (Dict.getD t "ID Number") (Dict.getD s "ID Number") = true
    · have hany : (List.any students fun t =>
          CellVal.pyEq (Dict.getD t "ID Number") (Dict.getD s "ID Number")) = true := by
        rw [List.any_eq_true]
        exact hex
      simp [addStudentV2, hany, hex]
    · have hany := (List.any_eq_false).mpr (by
        intro t ht heq
        exact hex ⟨t, ht, heq⟩)
      by_cases h4 : students.length < 4 <;>
        · simp [addStudentV2, hany, h4, hne, hex]
          try omega
  · intro hnan
    have hany : (List.any students fun t =>
        CellVal.pyEq (Dict.getD t "ID Number") (Dict.getD s "ID Number")) = false := by
      refine (List.any_eq_false).mpr ?_
      intro t ht
      rw [hnan]
      cases Dict.getD t "ID Number" <;> simp [CellVal.pyEq]
    by_cases h4 : students.length < 4 <;> simp [addStudentV2, hany, h4, hne]

/-- Witness for C2 at concrete students: with a stored student of ID
`S1`, a new student with the same ID is skipped, one with ID `S2` is
appended, and one with an absent (`NaN`) ID is appended; both revisions
agree on the skip case. -/
theorem student_dedup_spec_witness :
    addStudentV2 [[("ID Number", CellVal.str "S1")]] [("ID Number", CellVal.str "S1")] =
      [[("ID Number", CellVal.str "S1")]] ∧
    addStudentV2 [[("ID Number", CellVal.str "S1")]] [("ID Number", CellVal.str "S2")] =
      [[("ID Number", CellVal.str "S1")], [("ID Number", CellVal.str "S2")]] ∧
    addStudentV2 [[("ID Number", CellVal.str "S1")]] [("ID Number", CellVal.nan)] =
      [[("ID Number", CellVal.str "S1")], [("ID Number", CellVal.nan)]] ∧
    addStudentV1 [[("ID Number", CellVal.str "S1")]] [("ID Number", CellVal.str "S1")] =
      addStudentV2 [[("ID Number", CellVal.str "S1")]] [("ID Number", CellVal.str "S1")] := by
  have h1 := student_dedup_spec [[("ID Number", CellVal.str "S1")]]
    [("ID Number", CellVal.str "S1")] (by decide)
  have h2 := student_dedup_spec [[("ID Number", CellVal.str "S1")]]
    [("ID Number", CellVal.str "S2")] (by decide)
  have h3 := student_dedup_spec [[("ID Number", CellVal.str "S1")]]
    [("ID Number", CellVal.nan)] (by decide)
  refine ⟨?_, ?_, ?_, h1.1⟩
  · exact h1.2.2.1.mpr (Or.inr ⟨[("ID Number", CellVal.str "S1")], by decide, by decide,
      by decide, by decide, by decide⟩)
  · exact h2.2.1.mpr ⟨by decide, by decide⟩
  · exact (h3.2.2.2 (by decide)).mpr (by decide)

/-! ## Helper lemmas on the consolidation state -/

theorem foldl_preserves {α β : Type} (f : β → α → β) (P : β → Prop)
    (hstep : ∀ b a, P b → P (f b a)) :
    ∀ (l : List α) (b : β), P b → P (List.foldl f b l) := by
  intro l
  induction l with
  | nil => intro b hb; exact hb
  | cons a l ih => intro b hb; exact ih _ (hstep _ _ hb)

theorem addStudentV2_length_le (students : List Dict) (s : Dict)
    (h : students.length ≤ 4) : (addStudentV2 students s).length ≤ 4 := by
  unfold addStudentV2
  split
  · rename_i hc
    simp at hc ⊢
    omega
  · exact h

theorem addStudentV1_length_le (students : List Dict) (s : Dict)
    (h : students.length ≤ 4) : (addStudentV1 students s).length ≤ 4 := by
  unfold addStudentV1
  split
  · rename_i hc
    simp at hc ⊢
    omega
  · exact h

theorem processSlotV2_students_le (row si : Dict) (sn : CellVal) (i : Nat)
    (m : ConsMap EntryV2) (h : ∀ kv ∈ m, kv.2.students.length ≤ 4) :
    ∀ kv ∈ processSlotV2 row si sn i m, kv.2.students.length ≤ 4 := by
  unfold processSlotV2
  split
  · intro kv hkv
    have hm1 : ∀ kv ∈ (if (ConsMap.find? m (slotKey row i)).isSome then m
        else ConsMap.insert m (slotKey row i) ⟨[], [], sn⟩), kv.2.students.length ≤ 4 := by
      split
      · exact h
      · intro kv hkv
        rcases List.mem_append.mp hkv with hkv | hkv
        · exact h kv hkv
        · simp at hkv
          subst hkv
          simp
    obtain ⟨kv', hkv', hkveq⟩ := List.mem_map.mp hkv
    have hb := hm1 kv' hkv'
    by_cases hk : (kv'.1 == slotKey row i) = true
    · rw [if_pos hk] at hkveq
      subst hkveq
      exact addStudentV2_length_le _ _ hb
    · rw [if_neg hk] at hkveq
      subst hkveq
      exact hb
  · intro kv hkv
    exact h kv hkv

theorem processSlotV1_students_le (row si : Dict) (sn : CellVal) (i : Nat)
    (m : ConsMap EntryV1) (h : ∀ kv ∈ m, kv.2.students.length ≤ 4) :
    ∀ kv ∈ processSlotV1 row si sn i m, kv.2.students.length ≤ 4 := by
  unfold processSlotV1
  split
  · intro kv hkv
    dsimp only at hkv
    obtain ⟨kv', hkv', hkveq⟩ := List.mem_map.mp hkv
    have hb : kv'.2.students.length ≤ 4 := by
      revert hkv'
      split
      · intro hkv'
        obtain ⟨kv'', hkv'', hkveq'⟩ := List.mem_map.mp hkv'
        have hb'' := h kv'' hkv''
        by_cases hk : (kv''.1 == slotKey row i) = true
        · rw [if_pos hk] at hkveq'
          subst hkveq'
          simpa using hb''
        · rw [if_neg hk] at hkveq'
          subst hkveq'
          exact hb''
      · intro hkv'
        rcases List.mem_append.mp hkv' with hx | hx
        · exact h kv' hx
        · simp at hx
          subst hx
          simp
    by_cases hk : (kv'.1 == slotKey row i) = true
    · rw [if_pos hk] at hkveq
      subst hkveq
      exact addStudentV1_length_le _ _ hb
    · rw [if_neg hk] at hkveq
      subst hkveq
      exact hb
  · intro kv hkv
    exact h kv hkv

/-- The single consolidated entry produced by `consolidateV2` on the
one-row dataset `[rowAliceS1]`, used as a concrete witness value. -/
def entryAliceV2 : EntryV2 :=
  { parentInfo := [("Firstname", .str "Alice"), ("Lastname", .nan), ("SMS", .nan),
      ("Street Address", .nan), ("City", .nan), ("State", .nan), ("ZIP Code", .nan)],
    students := [[("ID Number", .str "S1"), ("First Name", .nan), ("Last Name", .nan),
      ("Grade Level", .nan), ("Homeroom", .nan)]],
    schoolName := .nan }

/-- Four stored students with distinct present IDs (a full list). -/
def fourStudents : List Dict :=
  [[("ID Number", CellVal.str "A")], [("ID Number", CellVal.str "B")],
   [("ID Number", CellVal.str "C")], [("ID Number", CellVal.str "D")]]

/-- C3: at every point of consolidation every contact's student list
holds at most 4 entries — in both revisions, for every input dataset —
and once a list holds 4 students a further arriving student is silently
dropped (the state is returned unchanged; the functions are total, so
processing continues without error). -/
theorem student_capacity_invariant :
    ∀ rows : List Dict,
      (∀ kv ∈ consolidateV2 rows, kv.2.students.length ≤ 4) ∧
      (∀ kv ∈ consolidateV1 rows, kv.2.students.length ≤ 4) ∧
      (∀ (students : List Dict) (s : Dict), 4 ≤ students.length →
        addStudentV2 students s = students ∧ addStudentV1 students s = students) := by
  intro rows
  refine ⟨?_, ?_, ?_⟩
  · exact foldl_preserves processRowV2 (fun m => ∀ kv ∈ m, kv.2.students.length ≤ 4)
      (fun m row hm => processSlotV2_students_le _ _ _ 2 _
        (processSlotV2_students_le _ _ _ 1 _ hm)) rows [] (by simp)
  · exact foldl_preserves processRowV1 (fun m => ∀ kv ∈ m, kv.2.students.length ≤ 4)
      (fun m row hm => processSlotV1_students_le _ _ _ 2 _
        (processSlotV1_students_le _ _ _ 1 _ hm)) rows [] (by simp)
  · intro students s h4
    have hlt : ¬ students.length < 4 := by omega
    constructor
    · unfold addStudentV2
      rw [if_neg (by simp [hlt])]
    · unfold addStudentV1
      rw [if_neg (by simp [hlt])]

/-- Witness for C3: the concrete entry of `consolidateV2 [rowAliceS1]`
obeys the bound, and a fifth student arriving at a full list of four is
dropped by both revisions with no error value. -/
theorem student_capacity_invariant_witness :
    entryAliceV2.students.length ≤ 4 ∧
    addStudentV2 fourStudents [("ID Number", CellVal.str "E")] = fourStudents ∧
    addStudentV1 fourStudents [("ID Number", CellVal.str "E")] = fourStudents := by
  refine ⟨(student_capacity_invariant [rowAliceS1]).1 ("a@x.com", entryAliceV2)
    (by decide), ?_, ?_⟩
  · exact ((student_capacity_invariant []).2.2 fourStudents
      [("ID Number", CellVal.str "E")] (by decide)).1
  · exact ((student_capacity_invariant []).2.2 fourStudents
      [("ID Number", CellVal.str "E")] (by decide)).2

theorem find?_modify {α : Type} (m : ConsMap α) (k k' : String) (f : α → α) :
    ConsMap.find? (ConsMap.modify m k f) k' =
      if k' = k then Option.map f (ConsMap.find? m k) else ConsMap.find? m k' := by
  induction m with
  | nil =>
      simp only [ConsMap.modify, List.map_nil, ConsMap.find?, List.find?_nil, Option.map_none]
      split <;> rfl
  | cons kv m ih =>
      simp only [ConsMap.modify, List.map_cons, ConsMap.find?, List.find?_cons] at ih ⊢
      by_cases hk : (kv.1 == k) = true
      · have hk' : kv.1 = k := by simpa using hk
        rw [if_pos hk]
        by_cases he : k' = k
        · subst he
          simp [hk']
        · have h1 : (k == k') = false := by simpa using fun h => he h.symm
          have h2 : (kv.1 == k') = false := by simp [hk']; intro h; exact he h.symm
          simp only [h1, h2, if_neg, Bool.false_eq_true, ite_false, if_neg he]
          simpa [he] using ih
      · have hkf : (kv.1 == k) = false := by simpa using hk
        rw [if_neg (by simp [hkf])]
        by_cases he : k' = k
        · subst he
          simp only [List.find?_cons, hkf, Bool.false_eq_true, ite_false, if_pos rfl] at ih ⊢
          simpa using ih
        · by_cases hv : (kv.1 == k') = true
          · simp [List.find?_cons, hv, he]
          · have hvf : (kv.1 == k') = false := by simpa using hv
            simp only [List.find?_cons, hvf, Bool.false_eq_true, ite_false, if_neg he] at ih ⊢
            simpa [he] using ih

theorem find?_insert_of_isSome {α : Type} (m : ConsMap α) (k k' : String) (v : α)
    (h : (ConsMap.find? m k').isSome) :
    ConsMap.find? (ConsMap.insert m k v) k' = ConsMap.find? m k' := by
  simp only [ConsMap.find?, ConsMap.insert, List.append_eq] at h ⊢
  rw [List.find?_append]
  cases hx : List.find? (fun kv => kv.1 == k') m with
  | none => rw [hx] at h; simp at h
  | some x => simp [hx]

theorem find?_modify_map {α β : Type} (g : α → β) (m : ConsMap α) (k k' : String)
    (f : α → α) (hf : ∀ a, g (f a) = g a) :
    Option.map g (ConsMap.find? (ConsMap.modify m k f) k') =
      Option.map g (ConsMap.find? m k') := by
  rw [find?_modify]
  split
  · rename_i he
    subst he
    cases ConsMap.find? m k' <;> simp [hf]
  · rfl

theorem isSome_of_map_eq {α β : Type} {g : α → β} {x y : Option α}
    (h : Option.map g x = Option.map g y) : x.isSome = y.isSome := by
  cases x <;> cases y <;> simp_all

theorem processSlotV2_schoolName (row si : Dict) (sn : CellVal) (i : Nat)
    (m : ConsMap EntryV2) (k : String) (h : (ConsMap.find? m k).isSome) :
    Option.map EntryV2.schoolName (ConsMap.find? (processSlotV2 row si sn i m) k) =
      Option.map EntryV2.schoolName (ConsMap.find? m k) := by
  unfold processSlotV2
  split
  · dsimp only
    have hm1 : ConsMap.find? (if (ConsMap.find? m (slotKey row i)).isSome then m
        else ConsMap.insert m (slotKey row i) ⟨[], [], sn⟩) k = ConsMap.find? m k := by
      split
      · rfl
      · exact find?_insert_of_isSome _ _ _ _ h
    refine (find?_modify_map EntryV2.schoolName _ (slotKey row i) k _ ?_).trans
      (congrArg (Option.map EntryV2.schoolName) hm1)
    intro e
    rfl
  · rfl

theorem processSlotV1_schoolName (row si : Dict) (sn : CellVal) (i : Nat)
    (m : ConsMap EntryV1) (k : String) (h : (ConsMap.find? m k).isSome) :
    Option.map EntryV1.schoolName (ConsMap.find? (processSlotV1 row si sn i m) k) =
      Option.map EntryV1.schoolName (ConsMap.find? m k) := by
  unfold processSlotV1
  split
  · dsimp only
    have hm1 : Option.map EntryV1.schoolName (ConsMap.find?
        (if (ConsMap.find? m (slotKey row i)).isSome then
          ConsMap.modify m (slotKey row i) (fun e =>
            { e with parentInfo := Dict.update e.parentInfo (parentDetailsV1 row i) })
        else ConsMap.insert m (slotKey row i) ⟨parentDetailsV1 row i, [], sn⟩) k) =
        Option.map EntryV1.schoolName (ConsMap.find? m k) := by
      split
      · refine find?_modify_map EntryV1.schoolName _ (slotKey row i) k _ ?_
        intro e
        rfl
      · rw [find?_insert_of_isSome _ _ _ _ h]
    refine (find?_modify_map EntryV1.schoolName _ (slotKey row i) k _ ?_).trans hm1
    intro e
    rfl
  · rfl

theorem processRowV2_schoolName (row : Dict) (m : ConsMap EntryV2) (k : String)
    (h : (ConsMap.find? m k).isSome) :
    Option.map EntryV2.schoolName (ConsMap.find? (processRowV2 m row) k) =
      Option.map EntryV2.schoolName (ConsMap.find? m k) := by
  unfold processRowV2
  dsimp only
  have h1 := processSlotV2_schoolName row (studentInfoV2 row) (Dict.getD row "School Name") 1 m k h
  have hs : (ConsMap.find?
      (processSlotV2 row (studentInfoV2 row) (Dict.getD row "School Name") 1 m) k).isSome := by
    rw [isSome_of_map_eq h1]
    exact h
  rw [processSlotV2_schoolName row (studentInfoV2 row) (Dict.getD row "School Name") 2 _ k hs, h1]

theorem processRowV1_schoolName (row : Dict) (m : ConsMap EntryV1) (k : String)
    (h : (ConsMap.find? m k).isSome) :
    Option.map EntryV1.schoolName (ConsMap.find? (processRowV1 m row) k) =
      Option.map EntryV1.schoolName (ConsMap.find? m k) := by
  unfold processRowV1
  dsimp only
  have h1 := processSlotV1_schoolName row (studentInfoV1 row)
    (Dict.getD (studentInfoV1 row) "School Name") 1 m k h
  have hs : (ConsMap.find? (processSlotV1 row (studentInfoV1 row)
      (Dict.getD (studentInfoV1 row) "School Name") 1 m) k).isSome := by
    rw [isSome_of_map_eq h1]
    exact h
  rw [processSlotV1_schoolName row (studentInfoV1 row)
    (Dict.getD (studentInfoV1 row) "School Name") 2 _ k hs, h1]

/-- C10: once a ContactKey exists in the consolidated map, processing
any further rows leaves that contact's recorded School Name unchanged —
in both revisions, whatever school names those rows carry; subsequent
sightings touch only the guardian attribute record and the student
list, so the value captured when the key was created survives to the
end of the loop. -/
theorem school_name_frozen :
    ∀ (rows : List Dict) (k : String),
      (∀ m : ConsMap EntryV2, (ConsMap.find? m k).isSome →
        Option.map EntryV2.schoolName
            (ConsMap.find? (List.foldl processRowV2 m rows) k) =
          Option.map EntryV2.schoolName (ConsMap.find? m k)) ∧
      (∀ m : ConsMap EntryV1, (ConsMap.find? m k).isSome →
        Option.map EntryV1.schoolName
            (ConsMap.find? (List.foldl processRowV1 m rows) k) =
          Option.map EntryV1.schoolName (ConsMap.find? m k)) := by
  intro rows
  induction rows with
  | nil => exact fun k => ⟨fun m _ => rfl, fun m _ => rfl⟩
  | cons r rows ih =>
      intro k
      constructor
      · intro m h
        have hstep := processRowV2_schoolName r m k h
        have hsome : (ConsMap.find? (processRowV2 m r) k).isSome := by
          rw [isSome_of_map_eq hstep]
          exact h
        rw [List.foldl_cons, (ih k).1 _ hsome, hstep]
      · intro m h
        have hstep := processRowV1_schoolName r m k h
        have hsome : (ConsMap.find? (processRowV1 m r) k).isSome := by
          rw [isSome_of_map_eq hstep]
          exact h
        rw [List.foldl_cons, (ih k).2 _ hsome, hstep]

/-- A consolidated contact for `a@x.com` whose recorded school name is
`Lincoln`. -/
def entryLincoln : EntryV2 :=
  { entryAliceV2 with schoolName := .str "Lincoln" }

/-- A later row for the same guardian email carrying a different,
present school name (`Roosevelt`) and a new student. -/
def rowRoosevelt : Dict :=
  Dict.update baseRowV1
    [("School Name", .str "Roosevelt"), ("ID Number", .str "S9"),
     ("Parent 1 Email", .str "a@x.com")]

/-- Witness for C10: processing a later row that carries school name
`Roosevelt` for an existing `a@x.com` contact leaves the recorded
school name `Lincoln` unchanged. -/
theorem school_name_frozen_witness :
    Option.map EntryV2.schoolName
        (ConsMap.find?
          (List.foldl processRowV2 [("a@x.com", entryLincoln)] [rowRoosevelt]) "a@x.com") =
      some (CellVal.str "Lincoln") := by
  rw [(school_name_frozen [rowRoosevelt] "a@x.com").1 [("a@x.com", entryLincoln)] (by decide)]
  decide

/-- The Staff output column list asserted by the claim (spec wording):
it adds `Is FacultyStaff` and `ID Number` to the layout. -/
def claimedStaffCols : List String :=
  ["Email", "School Name", "Firstname", "Lastname", "SMS", "Is FacultyStaff",
   "Street Address", "City", "State", "ZIP Code", "ID Number"]

/-- The columns of a processing result (empty on error), used to state
concrete counterexamples. -/
def resultColumns {ε : Type} (r : Except ε Df) : List String :=
  match r with
  | .ok df => df.columns
  | .error _ => []

/-- A fully populated Staff input row. -/
def staffRowDana : Dict :=
  [("School Name", .str "Lincoln"), ("ID Number", .str "E7"),
   ("First Name", .str "Dana"), ("Last Name", .str "Reyes"),
   ("Email", .str "dana@x.com"), ("Phone Number", .str "555"),
   ("Street Address", .str "1 Main St"), ("City", .str "Springfield"),
   ("State", .str "IL"), ("ZIP Code", .str "62704")]

/-- A one-row Staff dataset with every cell present. -/
def dfStaffOne : Df := ⟨expectedColsStaff, [staffRowDana]⟩

/-- C8 counterexample: on a concrete Staff dataset the code's output
column sequence is Email, School Name, Firstname, Lastname, SMS,
Street Address, City, State, ZIP Code — it differs from the claimed
sequence: no `Is FacultyStaff` role-flag column is set and `ID Number`
is dropped. -/
theorem staff_projection_counterexample :
    resultColumns (process_faculty_staff_info dfStaffOne) = staffOutputCols ∧
    staffOutputCols ≠ claimedStaffCols ∧
    "Is FacultyStaff" ∉ staffOutputCols ∧
    "ID Number" ∉ staffOutputCols := by
  refine ⟨by decide, by decide, by decide, by decide⟩

/-- C8 (amended): for the Staff schema no grouping occurs — each input
row maps 1:1, in order, to one output row obtained by renaming
First Name to Firstname, Last Name to Lastname and Phone Number to SMS
— and the output column set and order is the fixed sequence Email,
School Name, Firstname, Lastname, SMS, Street Address, City, State,
ZIP Code; no role flag is added and ID Number is not carried over. -/
theorem staff_projection_amended :
    ∀ df : Df, validate_columns df.columns expectedColsStaff = [] →
      ∃ out : Df, process_faculty_staff_info df = .ok out ∧
        out.columns = ["Email", "School Name", "Firstname", "Lastname", "SMS",
          "Street Address", "City", "State", "ZIP Code"] ∧
        out.rows.length = df.rows.length ∧
        (∀ r ∈ df.rows, Dict.keys r = expectedColsStaff →
          List.map (fun c =>
              (c, Dict.getD (List.map (fun kv => (staffRename kv.1, kv.2)) r) c))
            staffOutputCols =
          [("Email", Dict.getD r "Email"),
           ("School Name", Dict.getD r "School Name"),
           ("Firstname", Dict.getD r "First Name"),
           ("Lastname", Dict.getD r "Last Name"),
           ("SMS", Dict.getD r "Phone Number"),
           ("Street Address", Dict.getD r "Street Address"),
           ("City", Dict.getD r "City"),
           ("State", Dict.getD r "State"),
           ("ZIP Code", Dict.getD r "ZIP Code")]) ∧
        out.rows = List.map (fun r =>
          List.map (fun c =>
              (c, Dict.getD (List.map (fun kv => (staffRename kv.1, kv.2)) r) c))
            staffOutputCols) df.rows := by
  intro df hv
  have hout : process_faculty_staff_info df = .ok ⟨staffOutputCols,
      List.map (fun row =>
        List.map (fun c =>
            (c, Dict.getD (List.map (fun kv => (staffRename kv.1, kv.2)) row) c))
          staffOutputCols) df.rows⟩ := by
    simp only [process_faculty_staff_info, hv]
    rw [if_neg (by simp)]
  refine ⟨_, hout, rfl, by simp, ?_, rfl⟩
  · intro r hr hkeys
    clear hr
    rcases r with _ | ⟨⟨k0, v0⟩, r⟩
    · simp [Dict.keys, expectedColsStaff] at hkeys
    rcases r with _ | ⟨⟨k1, v1⟩, r⟩
    · simp [Dict.keys, expectedColsStaff] at hkeys
    rcases r with _ | ⟨⟨k2, v2⟩, r⟩
    · simp [Dict.keys, expectedColsStaff] at hkeys
    rcases r with _ | ⟨⟨k3, v3⟩, r⟩
    · simp [Dict.keys, expectedColsStaff] at hkeys
    rcases r with _ | ⟨⟨k4, v4⟩, r⟩
    · simp [Dict.keys, expectedColsStaff] at hkeys
    rcases r with _ | ⟨⟨k5, v5⟩, r⟩
    · simp [Dict.keys, expectedColsStaff] at hkeys
    rcases r with _ | ⟨⟨k6, v6⟩, r⟩
    · simp [Dict.keys, expectedColsStaff] at hkeys
    rcases r with _ | ⟨⟨k7, v7⟩, r⟩
    · simp [Dict.keys, expectedColsStaff] at hkeys
    rcases r with _ | ⟨⟨k8, v8⟩, r⟩
    · simp [Dict.keys, expectedColsStaff] at hkeys
    rcases r with _ | ⟨⟨k9, v9⟩, r⟩
    · simp [Dict.keys, expectedColsStaff] at hkeys
    rcases r with _ | ⟨⟨k10, v10⟩, r⟩
    · simp only [Dict.keys, List.map_cons, List.map_nil, expectedColsStaff] at hkeys
      obtain ⟨rfl, rfl, rfl, rfl, rfl, rfl, rfl, rfl, rfl, rfl⟩ := hkeys
      rfl
    · simp [Dict.keys, expectedColsStaff] at hkeys

/-- Witness for C8 (amended) on the one-row Staff dataset: processing
succeeds with the fixed 9 columns, one output row for the one input
row, and that row is exactly the rename of the input row. -/
theorem staff_projection_amended_witness :
    ∃ out : Df, process_faculty_staff_info dfStaffOne = .ok out ∧
      out.columns = ["Email", "School Name", "Firstname", "Lastname", "SMS",
        "Street Address", "City", "State", "ZIP Code"] ∧
      out.rows.length = 1 ∧
      out.rows = [[("Email", .str "dana@x.com"), ("School Name", .str "Lincoln"),
        ("Firstname", .str "Dana"), ("Lastname", .str "Reyes"), ("SMS", .str "555"),
        ("Street Address", .str "1 Main St"), ("City", .str "Springfield"),
        ("State", .str "IL"), ("ZIP Code", .str "62704")]] := by
  obtain ⟨out, h1, h2, h3, h4, h5⟩ := staff_projection_amended dfStaffOne (by decide)
  have h6 := h4 staffRowDana (by decide) (by decide)
  refine ⟨out, h1, h2, by rw [h3]; decide, ?_⟩
  rw [h5]
  decide

/-! ## Dict lookup lemmas for the fixed-column projection -/

theorem str_append_cancel {a b t : String} (h : a ++ t = b ++ t) : a = b := by
  have hd : a.data ++ t.data = b.data ++ t.data := congrArg String.data h
  have hab := List.append_cancel_right hd
  cases a
  cases b
  exact congrArg String.mk hab

theorem find?_mapReplace_self (d : Dict) (k : String) (v : CellVal)
    (hany : List.any d (fun kv => kv.1 == k) = true) :
    List.find? (fun kv => kv.1 == k)
      (List.map (fun kv => if kv.1 == k then (k, v) else kv) d) = some (k, v) := by
  induction d with
  | nil => simp at hany
  | cons kv d ih =>
      by_cases hk : (kv.1 == k) = true
      · simp only [List.map_cons, if_pos hk]
        exact List.find?_cons_of_pos _ (by simp)
      · have hkf : (kv.1 == k) = false := by simpa using hk
        simp only [List.any_cons, hkf, Bool.false_or] at hany
        simp only [List.map_cons, if_neg hk]
        rw [List.find?_cons_of_neg _ (by simp [hkf])]
        exact ih hany

theorem find?_mapReplace_ne (d : Dict) (k k' : String) (v : CellVal) (h : k' ≠ k) :
    List.find? (fun kv => kv.1 == k')
      (List.map (fun kv => if kv.1 == k then (k, v) else kv) d) =
    List.find? (fun kv => kv.1 == k') d := by
  induction d with
  | nil => rfl
  | cons kv d ih =>
      by_cases hk : (kv.1 == k) = true
      · have hkk : kv.1 = k := by simpa using hk
        have h1 : (k == k') = false := by
          simp only [beq_eq_false_iff_ne, ne_eq]
          exact fun hx => h hx.symm
        have h2 : (kv.1 == k') = false := by rw [hkk]; exact h1
        simp only [List.map_cons, if_pos hk, List.find?_cons, h1, h2]
        exact ih
      · simp only [List.map_cons, if_neg hk, List.find?_cons]
        cases hv : (kv.1 == k') with
        | true => rfl
        | false => exact ih

theorem get?_set_self (d : Dict) (k : String) (v : CellVal) :
    Dict.get? (Dict.set d k v) k = some v := by
  unfold Dict.set
  split
  · rename_i hany
    simp only [Dict.get?]
    rw [find?_mapReplace_self d k v hany]
    rfl
  · rename_i hany
    simp only [Dict.get?, List.append_eq]
    rw [List.find?_append]
    have hnone : List.find? (fun kv => kv.1 == k) d = none := by
      rw [List.find?_eq_none]
      intro x hx hbeq
      apply hany
      rw [List.any_eq_true]
      refine ⟨x, hx, ?_⟩
      exact hbeq
    simp [hnone]

theorem get?_set_ne (d : Dict) (k k' : String) (v : CellVal) (h : k' ≠ k) :
    Dict.get? (Dict.set d k v) k' = Dict.get? d k' := by
  unfold Dict.set
  split
  · simp only [Dict.get?]
    rw [find?_mapReplace_ne d k k' v h]
  · simp only [Dict.get?, List.append_eq]
    rw [List.find?_append]
    have hnone : List.find? (fun kv => kv.1 == k') [(k, v)] = none := by
      simp
      exact fun hx => h hx.symm
    cases hx : List.find? (fun kv => kv.1 == k') d <;> simp [hnone, hx]

theorem get?_foldl_setStu_ne (m : Nat) (f : (String × String) → CellVal) (key : String) :
    ∀ (L : List (String × String)) (rd : Dict),
      (∀ q ∈ L, q.2 ++ " Student " ++ toString m ≠ key) →
      Dict.get? (List.foldl (fun rd q =>
          Dict.set rd (q.2 ++ " Student " ++ toString m) (f q)) rd L) key =
        Dict.get? rd key := by
  intro L
  induction L with
  | nil => intro rd _; rfl
  | cons q L ih =>
      intro rd hne
      rw [List.foldl_cons, ih _ (fun q' hq' => hne q' (List.mem_cons_of_mem _ hq'))]
      exact get?_set_ne _ _ _ _ (fun hx => hne q (List.mem_cons_self _ _) hx.symm)

theorem get?_foldl_setStu (m : Nat) (f : (String × String) → CellVal) :
    ∀ (L : List (String × String)) (rd : Dict) (p : String × String), p ∈ L →
      (List.map (fun q => q.2 ++ " Student " ++ toString m) L).Nodup →
      Dict.get? (List.foldl (fun rd q =>
          Dict.set rd (q.2 ++ " Student " ++ toString m) (f q)) rd L)
        (p.2 ++ " Student " ++ toString m) = some (f p) := by
  intro L
  induction L with
  | nil => intro rd p hp _; simp at hp
  | cons q L ih =>
      intro rd p hp hnd
      rw [List.map_cons, List.nodup_cons] at hnd
      rcases List.mem_cons.mp hp with rfl | hp'
      · rw [List.foldl_cons, get?_foldl_setStu_ne]
        · exact get?_set_self _ _ _
        · intro q' hq' heq
          exact hnd.1 (heq ▸ List.mem_map_of_mem _ hq')
      · exact ih _ p hp' hnd.2

theorem get?_writeSlotV1_ne (s? : Option Dict) (j : Nat) (rd : Dict) (key : String)
    (h : ∀ q ∈ outputStudentBaseNamesV1, q.2 ++ " Student " ++ toString (j + 1) ≠ key) :
    Dict.get? (writeSlotV1 s? j rd) key = Dict.get? rd key := by
  cases s? with
  | some s =>
      show Dict.get? (List.foldl (fun rd p =>
          Dict.set rd (p.2 ++ " Student " ++ toString (j + 1)) (Dict.getD s p.1))
          rd outputStudentBaseNamesV1) key = Dict.get? rd key
      exact get?_foldl_setStu_ne (j + 1) (fun p => Dict.getD s p.1) key
        outputStudentBaseNamesV1 rd h
  | none =>
      show Dict.get? (List.foldl (fun rd p =>
          Dict.set rd (p.2 ++ " Student " ++ toString (j + 1)) CellVal.null)
          rd outputStudentBaseNamesV1) key = Dict.get? rd key
      exact get?_foldl_setStu_ne (j + 1) (fun _ => CellVal.null) key
        outputStudentBaseNamesV1 rd h

theorem baseNames_student_nodup (m : Nat) :
    (List.map (fun q => q.2 ++ " Student " ++ toString m) outputStudentBaseNamesV1).Nodup := by
  have hinj : ∀ a b : String,
      a ++ " Student " ++ toString m = b ++ " Student " ++ toString m → a = b := by
    intro a b hab
    exact str_append_cancel (str_append_cancel hab)
  have hbase : (List.map (fun q => q.2) outputStudentBaseNamesV1).Nodup := by decide
  have : List.map (fun q => q.2 ++ " Student " ++ toString m) outputStudentBaseNamesV1 =
      List.map (fun s => s ++ " Student " ++ toString m)
        (List.map (fun q => q.2) outputStudentBaseNamesV1) := by
    rw [List.map_map]
    rfl
  rw [this]
  exact hbase.map (fun a b hab => hinj a b hab)

theorem get?_writeSlotV1_none (j : Nat) (rd : Dict) (b : String)
    (hb : b ∈ List.map (fun q => q.2) outputStudentBaseNamesV1) :
    Dict.get? (writeSlotV1 none j rd) (b ++ " Student " ++ toString (j + 1)) =
      some CellVal.null := by
  obtain ⟨p, hp, rfl⟩ := List.mem_map.mp hb
  exact get?_foldl_setStu (j + 1) (fun _ => CellVal.null) outputStudentBaseNamesV1 rd p hp
    (baseNames_student_nodup (j + 1))

theorem keys_reindexRow (cols : List String) (d : Dict) :
    Dict.keys (reindexRow cols d) = cols := by
  induction cols with
  | nil => rfl
  | cons c cols ih =>
      simp only [reindexRow, Dict.keys, List.map_cons] at ih ⊢
      rw [ih]

theorem get?_reindexRow (cols : List String) (d : Dict) (c : String) (h : c ∈ cols) :
    Dict.get? (reindexRow cols d) c = some ((Dict.get? d c).getD .nan) := by
  induction cols with
  | nil => simp at h
  | cons c0 cols ih =>
      simp only [reindexRow, List.map_cons, Dict.get?, List.find?_cons]
      by_cases hc : (c0 == c) = true
      · have : c0 = c := by simpa using hc
        subst this
        simp
      · rcases List.mem_cons.mp h with rfl | h'
        · simp at hc
        · simp only [hc]
          exact ih h'

theorem get?_outputRowV1_null (k : String) (e : EntryV1) (i : Nat) (p : String × String)
    (hp : p ∈ outputStudentBaseNamesV1) (h1 : 1 ≤ i) (h4 : i ≤ 4)
    (hlen : e.students.length < i) :
    Dict.get? (outputRowV1 k e) (p.2 ++ " Student " ++ toString i) = some CellVal.null := by
  interval_cases i
  · fin_cases hp <;>
      (simp only [outputRowV1, List.foldl_cons, List.foldl_nil]
       rw [get?_writeSlotV1_ne (List.get? e.students 3) 3,
         get?_writeSlotV1_ne (List.get? e.students 2) 2,
         get?_writeSlotV1_ne (List.get? e.students 1) 1,
         List.get?_eq_none.mpr (show e.students.length ≤ 0 from by omega)]
       exact get?_writeSlotV1_none 0 _ _ (by decide)
       all_goals decide)
  · fin_cases hp <;>
      (simp only [outputRowV1, List.foldl_cons, List.foldl_nil]
       rw [get?_writeSlotV1_ne (List.get? e.students 3) 3,
         get?_writeSlotV1_ne (List.get? e.students 2) 2,
         List.get?_eq_none.mpr (show e.students.length ≤ 1 from by omega)]
       exact get?_writeSlotV1_none 1 _ _ (by decide)
       all_goals decide)
  · fin_cases hp <;>
      (simp only [outputRowV1, List.foldl_cons, List.foldl_nil]
       rw [get?_writeSlotV1_ne (List.get? e.students 3) 3,
         List.get?_eq_none.mpr (show e.students.length ≤ 2 from by omega)]
       exact get?_writeSlotV1_none 2 _ _ (by decide)
       all_goals decide)
  · fin_cases hp <;>
      (simp only [outputRowV1, List.foldl_cons, List.foldl_nil]
       rw [List.get?_eq_none.mpr (show e.students.length ≤ 3 from by omega)]
       exact get?_writeSlotV1_none 3 _ _ (by decide))

/-- The Student-Guardian output column sequence asserted by the claim
(spec wording): per student slot First Name/Last Name/ID Number/
Grade Level/Homeroom, with no `SLC Name` column. -/
def claimedStudentGuardianCols : List String :=
  List.append
    ["Email", "School Name", "Firstname", "Lastname", "SMS", "Is FacultyStaff",
     "Street Address", "City", "State", "ZIP Code"]
    (List.flatMap [1, 2, 3, 4] (fun i =>
      List.map (fun b => b ++ " Student " ++ toString i)
        ["First Name", "Last Name", "ID Number", "Grade Level", "Homeroom"]))

/-- A one-row Student-Guardian dataset over the `app.py` columns. -/
def dfOneRowV1 : Df := ⟨expectedColsV1, [rowAliceS1]⟩

/-- C7 counterexample: on a concrete dataset the emitted columns are
the code's `output_cols` — which insert an `SLC Name Student i` column
into every slot and order each slot's columns SLC Name, ID Number,
First Name, Last Name, Grade Level, Homeroom — and differ from the
claimed sequence.  The `app v2.py` revision also contradicts the claim
on the same input: its output row dict carries no `Is FacultyStaff`
key at all. -/
theorem student_guardian_projection_counterexample :
    resultColumns (process_uploaded_spreadsheet dfOneRowV1) = outputColsV1 ∧
    outputColsV1 ≠ claimedStudentGuardianCols ∧
    "SLC Name Student 1" ∈ outputColsV1 ∧
    "SLC Name Student 1" ∉ claimedStudentGuardianCols ∧
    outputRowsV2 (consolidateV2 [rowAliceS1]) = [outputRowV2 "a@x.com" entryAliceV2] ∧
    Dict.get? (outputRowV2 "a@x.com" entryAliceV2) "Is FacultyStaff" = none := by
  refine ⟨by decide, by decide, by decide, by decide, by decide, by decide⟩

/-- C7 (amended): for every validated dataset, `app.py` emits exactly
one output row per consolidated contact with the fixed column sequence
Email, School Name, Firstname, Lastname, SMS, Is FacultyStaff,
Street Address, City, State, ZIP Code, then for each slot i in 1..4
the student columns SLC Name/ID Number/First Name/Last Name/
Grade Level/Homeroom `Student i` — identical regardless of how many
students each contact has — and for every slot index beyond a
contact's student count all of that slot's fields are explicit nulls
(present columns holding `None`), not omitted columns. -/
theorem student_guardian_projection_amended :
    ∀ df : Df, validate_columns df.columns expectedColsV1 = [] →
      ∃ out : Df, process_uploaded_spreadsheet df = .ok out ∧
        out.columns = ["Email", "School Name", "Firstname", "Lastname", "SMS",
          "Is FacultyStaff", "Street Address", "City", "State", "ZIP Code",
          "SLC Name Student 1", "ID Number Student 1", "First Name Student 1",
          "Last Name Student 1", "Grade Level Student 1", "Homeroom Student 1",
          "SLC Name Student 2", "ID Number Student 2", "First Name Student 2",
          "Last Name Student 2", "Grade Level Student 2", "Homeroom Student 2",
          "SLC Name Student 3", "ID Number Student 3", "First Name Student 3",
          "Last Name Student 3", "Grade Level Student 3", "Homeroom Student 3",
          "SLC Name Student 4", "ID Number Student 4", "First Name Student 4",
          "Last Name Student 4", "Grade Level Student 4", "Homeroom Student 4"] ∧
        out.rows.length = (consolidateV1 df.rows).length ∧
        (∀ r ∈ out.rows, Dict.keys r = out.columns) ∧
        (∀ j k e, (consolidateV1 df.rows).get? j = some (k, e) →
          ∃ r, out.rows.get? j = some r ∧
            ∀ i, 1 ≤ i → i ≤ 4 → e.students.length < i →
              ∀ p ∈ outputStudentBaseNamesV1,
                Dict.get? r (p.2 ++ " Student " ++ toString i) = some CellVal.null) := by
  intro df hv
  have hout : process_uploaded_spreadsheet df = .ok ⟨outputColsV1,
      List.map (fun kv => reindexRow outputColsV1 (outputRowV1 kv.1 kv.2))
        (consolidateV1 df.rows)⟩ := by
    simp only [process_uploaded_spreadsheet, hv]
    rw [if_neg (by simp)]
  refine ⟨_, hout, ?_, by simp, ?_, ?_⟩
  · show outputColsV1 = _
    decide
  · intro r hr
    obtain ⟨kv, _, rfl⟩ := List.mem_map.mp hr
    exact keys_reindexRow _ _
  · intro j k e hj
    refine ⟨reindexRow outputColsV1 (outputRowV1 k e), ?_, ?_⟩
    · rw [List.get?_map, hj]
      rfl
    · intro i h1 h4 hlen p hp
      rw [get?_reindexRow]
      · rw [get?_outputRowV1_null k e i p hp h1 h4 hlen]
        rfl
      · interval_cases i <;> fin_cases hp <;> decide

/-- The single consolidated entry produced by `consolidateV1` on the
one-row dataset `[rowAliceS1]`. -/
def entryAliceV1 : EntryV1 :=
  { parentInfo := [("Firstname", .str "Alice"), ("Lastname", .nan), ("SMS", .nan),
      ("Is FacultyStaff", .null), ("Street Address", .nan), ("City", .nan),
      ("State", .nan), ("ZIP Code", .nan)],
    students := [[("School Name", .nan), ("SLC Name", .nan), ("ID Number", .str "S1"),
      ("Student First Name", .nan), ("Student Last Name", .nan),
      ("Student Grade Level", .nan), ("Student Homeroom", .nan)]],
    schoolName := .nan }

/-- Witness for C7 (amended) on a one-row dataset with a single
student: processing succeeds, there is exactly one output row, and the
empty slot 2 carries an explicit null in its `ID Number Student 2`
column. -/
theorem student_guardian_projection_amended_witness :
    ∃ out : Df, process_uploaded_spreadsheet dfOneRowV1 = .ok out ∧
      out.rows.length = 1 ∧
      ∃ r, out.rows.get? 0 = some r ∧
        Dict.get? r "ID Number Student 2" = some CellVal.null := by
  obtain ⟨out, h1, h2, h3, h4, h5⟩ :=
    student_guardian_projection_amended dfOneRowV1 (by decide)
  obtain ⟨r, hr, hnull⟩ := h5 0 "a@x.com" entryAliceV1 (by decide)
  refine ⟨out, h1, ?_, r, hr, ?_⟩
  · rw [h3]
    decide
  · exact hnull 2 (by decide) (by decide) (by decide) ("ID Number", "ID Number") (by decide)

/-! ## ContactKey lemmas for the consolidated map -/

/-- The guardian attribute keys of `parent_details` in `app v2.py`. -/
def parentKeysV2 : List String :=
  ["Firstname", "Lastname", "SMS", "Street Address", "City", "State", "ZIP Code"]

/-- The student dict keys of `student_info` in `app v2.py`. -/
def studentKeysV2 : List String :=
  ["ID Number", "First Name", "Last Name", "Grade Level", "Homeroom"]

theorem find?_isSome_iff_mem_keys {α : Type} (m : ConsMap α) (k : String) :
    (ConsMap.find? m k).isSome ↔ k ∈ ConsMap.keys m := by
  induction m with
  | nil => simp [ConsMap.find?, ConsMap.keys]
  | cons kv m ih =>
      simp only [ConsMap.find?, List.find?_cons, ConsMap.keys, List.map_cons,
        List.mem_cons] at ih ⊢
      by_cases hk : (kv.1 == k) = true
      · have : kv.1 = k := by simpa using hk
        simp [hk, this]
      · have hkf : (kv.1 == k) = false := by simpa using hk
        have hne : ¬ k = kv.1 := by
          intro hx
          simp [hx] at hkf
        simp only [hkf]
        rw [ih]
        constructor
        · exact Or.inr
        · rintro (hx | hx)
          · exact absurd hx hne
          · exact hx

theorem keys_modify {α : Type} (m : ConsMap α) (k : String) (f : α → α) :
    ConsMap.keys (ConsMap.modify m k f) = ConsMap.keys m := by
  simp only [ConsMap.keys, ConsMap.modify, List.map_map]
  refine List.map_eq_map_iff.mpr ?_
  intro kv _
  simp only [Function.comp_apply]
  by_cases hk : (kv.1 == k) = true
  · have : kv.1 = k := by simpa using hk
    simp [hk, this]
  · simp [hk]

theorem mem_dictSet (d : Dict) (k : String) (v : CellVal) (q : String × CellVal)
    (h : q ∈ Dict.set d k v) : q ∈ d ∨ q = (k, v) := by
  unfold Dict.set at h
  split at h
  · obtain ⟨q', hq', hqeq⟩ := List.mem_map.mp h
    by_cases hk : (q'.1 == k) = true
    · rw [if_pos hk] at hqeq
      exact Or.inr hqeq.symm
    · rw [if_neg hk] at hqeq
      exact Or.inl (hqeq ▸ hq')
  · rw [List.append_eq] at h
    rcases List.mem_append.mp h with hx | hx
    · exact Or.inl hx
    · simp at hx
      exact Or.inr hx

theorem mem_dictUpdate (new : Dict) :
    ∀ (d : Dict) (q : String × CellVal), q ∈ Dict.update d new → q ∈ d ∨ q ∈ new := by
  induction new with
  | nil => intro d q h; exact Or.inl h
  | cons n new ih =>
      intro d q h
      rcases ih (Dict.set d n.1 n.2) q h with hx | hx
      · rcases mem_dictSet _ _ _ _ hx with hy | hy
        · exact Or.inl hy
        · exact Or.inr (List.mem_cons.mpr (Or.inl hy))
      · exact Or.inr (List.mem_cons_of_mem _ hx)

theorem get?_update_not_mem (new : Dict) :
    ∀ (d : Dict) (key : String), (∀ q ∈ new, q.1 ≠ key) →
      Dict.get? (Dict.update d new) key = Dict.get? d key := by
  induction new with
  | nil => intro d key _; rfl
  | cons n new ih =>
      intro d key h
      rw [show Dict.update d (n :: new) = Dict.update (Dict.set d n.1 n.2) new from rfl,
        ih _ key (fun q hq => h q (List.mem_cons_of_mem _ hq))]
      exact get?_set_ne _ _ _ _ (fun hx => h n (List.mem_cons_self _ _) hx.symm)

theorem get?_studentFold_email (t : String) :
    ∀ (l : List (String × CellVal)) (rd : Dict), (∀ kv ∈ l, 8 ≤ kv.1.length) →
      Dict.get? (List.foldl (fun rd kv =>
        Dict.set rd (kv.1 ++ " Student " ++ t) kv.2) rd l) "Email" =
      Dict.get? rd "Email" := by
  intro l
  induction l with
  | nil => intro rd _; rfl
  | cons kv l ih =>
      intro rd h
      rw [List.foldl_cons, ih _ (fun q hq => h q (List.mem_cons_of_mem _ hq))]
      refine get?_set_ne _ _ _ _ (fun hx => ?_)
      have hlen := congrArg String.length hx
      have h8 := h kv (List.mem_cons_self _ _)
      simp only [String.length_append] at hlen
      have : (" Student " : String).length = 9 := by decide
      have : ("Email" : String).length = 5 := by decide
      omega

theorem get?_outputRowV2_email (k : String) (e : EntryV2)
    (hpar : ∀ q ∈ e.parentInfo, q.1 ∈ parentKeysV2)
    (hstu : ∀ s ∈ e.students, Dict.keys s = studentKeysV2) :
    Dict.get? (outputRowV2 k e) "Email" = some (.str k) := by
  unfold outputRowV2
  dsimp only
  have h0 : Dict.get?
      (Dict.update [("Email", .str k), ("School Name", e.schoolName)] e.parentInfo)
      "Email" = some (.str k) := by
    rw [get?_update_not_mem _ _ _ ?_]
    · rfl
    · intro q hq heq
      have hmem := hpar q hq
      rw [heq] at hmem
      exact absurd hmem (by decide)
  rw [← h0]
  have hgen : ∀ (L : List (Nat × Dict)) (rd : Dict),
      (∀ p ∈ L, Dict.keys p.2 = studentKeysV2) →
      Dict.get? (List.foldl (fun rd p => List.foldl (fun rd kv =>
        Dict.set rd (kv.1 ++ " Student " ++ toString (p.1 + 1)) kv.2) rd p.2) rd L)
        "Email" = Dict.get? rd "Email" := by
    intro L
    induction L with
    | nil => intro rd _; rfl
    | cons p L ih =>
        intro rd h
        rw [List.foldl_cons, ih _ (fun q hq => h q (List.mem_cons_of_mem _ hq))]
        refine get?_studentFold_email _ _ _ ?_
        intro kv hkv
        have hkeys := h p (List.mem_cons_self _ _)
        have : kv.1 ∈ Dict.keys p.2 := by
          simp only [Dict.keys]
          exact List.mem_map_of_mem _ hkv
        rw [hkeys] at this
        have h8 : ∀ x ∈ studentKeysV2, 8 ≤ x.length := by decide
        exact h8 _ this
  refine hgen e.students.enum _ ?_
  intro p hp
  exact hstu p.2 (List.snd_mem_of_mem_enum hp)

/-- Well-formedness of the consolidated map in `app v2.py`: ContactKeys
are pairwise distinct (it is a dict), every stored guardian attribute
key comes from `parent_details`, and every stored student dict has
exactly the `student_info` keys. -/
def goodMapV2 (m : ConsMap EntryV2) : Prop :=
  (ConsMap.keys m).Nodup ∧
  ∀ kv ∈ m, (∀ q ∈ kv.2.parentInfo, q.1 ∈ parentKeysV2) ∧
    (∀ s ∈ kv.2.students, Dict.keys s = studentKeysV2)

theorem parentDetailsV2_keys (row : Dict) (i : Nat) :
    ∀ q ∈ parentDetailsV2 row i, q.1 ∈ parentKeysV2 := by
  intro q hq
  simp only [parentDetailsV2, List.mem_cons, List.not_mem_nil, or_false] at hq
  rcases hq with rfl | rfl | rfl | rfl | rfl | rfl | rfl <;> simp [parentKeysV2]

theorem processSlotV2_good (row si : Dict) (sn : CellVal) (i : Nat)
    (m : ConsMap EntryV2) (hsi : Dict.keys si = studentKeysV2) (h : goodMapV2 m) :
    goodMapV2 (processSlotV2 row si sn i m) := by
  unfold processSlotV2
  split
  · dsimp only
    have h1 : goodMapV2 (if (ConsMap.find? m (slotKey row i)).isSome then m
        else ConsMap.insert m (slotKey row i) ⟨[], [], sn⟩) := by
      split
      · exact h
      · rename_i hnotin
        constructor
        · simp only [ConsMap.insert, ConsMap.keys, List.append_eq, List.map_append,
            List.map_cons, List.map_nil]
          rw [List.nodup_append]
          refine ⟨h.1, List.nodup_singleton _, ?_⟩
          intro k hk hk'
          simp at hk'
          subst hk'
          exact hnotin (by rw [find?_isSome_iff_mem_keys]; exact hk)
        · intro kv hkv
          rcases List.mem_append.mp hkv with hx | hx
          · exact h.2 kv hx
          · simp at hx
            subst hx
            exact ⟨by simp, by simp⟩
    constructor
    · rw [keys_modify]
      exact h1.1
    · intro kv hkv
      obtain ⟨kv', hkv', hkveq⟩ := List.mem_map.mp hkv
      have hgood' := h1.2 kv' hkv'
      by_cases hk : (kv'.1 == slotKey row i) = true
      · rw [if_pos hk] at hkveq
        subst hkveq
        constructor
        · intro q hq
          rcases mem_dictUpdate _ _ _ hq with hx | hx
          · exact hgood'.1 q hx
          · exact parentDetailsV2_keys row i q (List.mem_filter.mp hx).1
        · intro s hs
          simp only [addStudentV2] at hs
          split at hs
          · rcases List.mem_append.mp hs with hx | hx
            · exact hgood'.2 s hx
            · simp at hx
              subst hx
              exact hsi
          · exact hgood'.2 s hs
      · rw [if_neg hk] at hkveq
        subst hkveq
        exact hgood'
  · exact h

theorem keys_processSlotV2_subset (row si : Dict) (sn : CellVal) (i : Nat)
    (m : ConsMap EntryV2) :
    ∀ k ∈ ConsMap.keys (processSlotV2 row si sn i m),
      k ∈ ConsMap.keys m ∨ (slotActive row i = true ∧ k = slotKey row i) := by
  unfold processSlotV2
  split
  · rename_i hact
    intro k hk
    dsimp only at hk
    rw [keys_modify] at hk
    revert hk
    split
    · intro hk
      exact Or.inl hk
    · intro hk
      simp only [ConsMap.insert, ConsMap.keys, List.append_eq, List.map_append,
        List.map_cons, List.map_nil] at hk
      rcases List.mem_append.mp hk with hx | hx
      · exact Or.inl hx
      · simp at hx
        exact Or.inr ⟨hact, hx⟩
  · intro k hk
    exact Or.inl hk

theorem processRowV2_good (row : Dict) (m : ConsMap EntryV2) (h : goodMapV2 m) :
    goodMapV2 (processRowV2 m row) := by
  unfold processRowV2
  exact processSlotV2_good _ _ _ 2 _ rfl (processSlotV2_good _ _ _ 1 _ rfl h)

theorem keys_processRowV2_subset (row : Dict) (m : ConsMap EntryV2) :
    ∀ k ∈ ConsMap.keys (processRowV2 m row),
      k ∈ ConsMap.keys m ∨ ∃ i, (i = 1 ∨ i = 2) ∧
        slotActive row i = true ∧ k = slotKey row i := by
  unfold processRowV2
  intro k hk
  rcases keys_processSlotV2_subset row _ _ 2 _ k hk with hx | hx
  · rcases keys_processSlotV2_subset row _ _ 1 _ k hx with hy | hy
    · exact Or.inl hy
    · exact Or.inr ⟨1, Or.inl rfl, hy⟩
  · exact Or.inr ⟨2, Or.inr rfl, hx⟩

theorem consolidateV2_good_and_from :
    ∀ (rows : List Dict) (m : ConsMap EntryV2), goodMapV2 m →
      goodMapV2 (List.foldl processRowV2 m rows) ∧
      ∀ k ∈ ConsMap.keys (List.foldl processRowV2 m rows),
        k ∈ ConsMap.keys m ∨ ∃ row ∈ rows, ∃ i, (i = 1 ∨ i = 2) ∧
          slotActive row i = true ∧ k = slotKey row i := by
  intro rows
  induction rows with
  | nil => intro m h; exact ⟨h, fun k hk => Or.inl hk⟩
  | cons r rows ih =>
      intro m h
      obtain ⟨hg, hf⟩ := ih (processRowV2 m r) (processRowV2_good r m h)
      rw [List.foldl_cons]
      refine ⟨hg, fun k hk => ?_⟩
      rcases hf k hk with hx | ⟨row, hrow, i, hi, hact, hkey⟩
      · rcases keys_processRowV2_subset r m k hx with hy | ⟨i, hi, hact, hkey⟩
        · exact Or.inl hy
        · exact Or.inr ⟨r, List.mem_cons_self _ _, i, hi, hact, hkey⟩
      · exact Or.inr ⟨row, List.mem_cons_of_mem _ hrow, i, hi, hact, hkey⟩

/-- C4: for the Student-Guardian output of `app v2.py`, every row's
Email is the lower-cased, trimmed form of some input row's guardian
slot 1 or slot 2 email cell; no two output rows share an Email (the
consolidated dict has at most one entry per normalized email); and a
guardian slot whose email cell is absent or blank after trimming is
skipped entirely for that row — it contributes no contact, no attribute
merge and no student append, leaving the map unchanged. -/
theorem contact_key_spec :
    ∀ rows : List Dict,
      (List.map (fun rd => Dict.get? rd "Email")
        (outputRowsV2 (consolidateV2 rows))).Nodup ∧
      (∀ rd ∈ outputRowsV2 (consolidateV2 rows), ∃ row ∈ rows, ∃ i, (i = 1 ∨ i = 2) ∧
        slotActive row i = true ∧
        Dict.get? rd "Email" = some (.str (slotKey row i))) ∧
      (∀ (m : ConsMap EntryV2) (row si : Dict) (sn : CellVal) (i : Nat),
        slotActive row i = false → processSlotV2 row si sn i m = m) := by
  intro rows
  obtain ⟨hg, hf⟩ := consolidateV2_good_and_from rows [] ⟨List.nodup_nil, by simp⟩
  have hemails : List.map (fun rd => Dict.get? rd "Email")
      (outputRowsV2 (consolidateV2 rows)) =
      List.map (fun kv => some (CellVal.str kv.1)) (consolidateV2 rows) := by
    simp only [outputRowsV2, List.map_map]
    refine List.map_eq_map_iff.mpr ?_
    intro kv hkv
    simp only [Function.comp_apply]
    exact get?_outputRowV2_email kv.1 kv.2 (hg.2 kv hkv).1 (hg.2 kv hkv).2
  refine ⟨?_, ?_, ?_⟩
  · rw [hemails]
    have hsplit : List.map (fun kv => some (CellVal.str kv.1)) (consolidateV2 rows) =
        List.map (fun k => some (CellVal.str k)) (ConsMap.keys (consolidateV2 rows)) := by
      simp only [ConsMap.keys, List.map_map]
      rfl
    rw [hsplit]
    refine (hg.1).map ?_
    intro a b hab
    simpa using hab
  · intro rd hrd
    obtain ⟨kv, hkv, rfl⟩ := List.mem_map.mp hrd
    have hkey : kv.1 ∈ ConsMap.keys (consolidateV2 rows) := List.mem_map_of_mem _ hkv
    rcases hf kv.1 hkey with hx | ⟨row, hrow, i, hi, hact, hkeyeq⟩
    · simp [ConsMap.keys] at hx
    · refine ⟨row, hrow, i, hi, hact, ?_⟩
      rw [get?_outputRowV2_email kv.1 kv.2 (hg.2 kv hkv).1 (hg.2 kv hkv).2, hkeyeq]
  · intro m row si sn i hact
    simp [processSlotV2, hact]

/-- Witness for C4: on the one-row dataset the single output row's
Email is the normalized guardian email of that row's slot 1, and
processing a slot whose email cell is blank (`NaN`) leaves an empty map
unchanged. -/
theorem contact_key_spec_witness :
    (∃ row ∈ [rowAliceS1], ∃ i, (i = 1 ∨ i = 2) ∧ slotActive row i = true ∧
      Dict.get? (outputRowV2 "a@x.com" entryAliceV2) "Email" =
        some (.str (slotKey row i))) ∧
    processSlotV2 baseRowV1 (studentInfoV2 baseRowV1) CellVal.nan 1 [] = [] := by
  refine ⟨(contact_key_spec [rowAliceS1]).2.1 _ (by decide), ?_⟩
  exact (contact_key_spec []).2.2 [] baseRowV1 (studentInfoV2 baseRowV1)
    CellVal.nan 1 (by decide)
